import Mathlib

/-!
Activity and streak analytics of `src/services/stats.service.js`.

A shallow embedding of the four operations exported by the stats service
(`calculateUserStreak`, `getUserActivityHeatmap`, `getUserSubmissionChart`,
`getUserStats`) together with the statements of their specification.

Modelling conventions.

* A JavaScript `Date` is its time value: an `Int` number of milliseconds since
  the epoch.
* The time zone of the process is a parameter `zone : Zone` of every function
  whose source reads or sets local date fields with `setHours` or `setFullYear`.
  `fixedZone offset` is a zone without offset change and `utcZone` is UTC.
* `setDate(getDate() + k)` moves the time value by `k` whole days, which is what
  it does whenever the offset of the zone is the same at both moments; the chart
  is modelled for such moments and carries no zone.
* The text `d.toISOString().split("T")[0]` (a `YYYY-MM-DD` key) is represented
  by the UTC day number it denotes, `isoDateKey d = d / DAY`.
* An `async` function is its outcome: `Except Err α`, a rejection being
  `Except.error`.
* A plain JavaScript object used as a map from date keys is an association list
  in insertion order, which is the order `Object.entries` enumerates.
-/

namespace StatsService

/-! ## Dates -/

/-- Milliseconds per day, the constant `1000 * 60 * 60 * 24` of the source. -/
def DAY : Int := 1000 * 60 * 60 * 24

/-- Time zone of the process: `offsetUtc t` is the offset in milliseconds of
local time from UTC at the time value `t`, and `offsetLocal l` the offset taken
when the local time value `l` is converted back to a time value. -/
structure Zone where
  offsetUtc : Int → Int
  offsetLocal : Int → Int

/-- Zone whose offset from UTC never changes. -/
def fixedZone (offset : Int) : Zone :=
  { offsetUtc := fun _ => offset, offsetLocal := fun _ => offset }

/-- Zone of a process running in UTC. -/
def utcZone : Zone := fixedZone 0

/-- Zone five hours behind UTC that moves to four hours behind at 02:00 local
time of day 10, a daylight-saving change of the spring. -/
def springForwardZone : Zone :=
  { offsetUtc := fun t => if t < 10 * DAY + 7 * 3600000 then -5 * 3600000 else -4 * 3600000
    offsetLocal := fun l => if l < 10 * DAY + 3 * 3600000 then -5 * 3600000 else -4 * 3600000 }

/-- Local time value of a time value, `LocalTime(t)` of the language. -/
def toLocal (zone : Zone) (t : Int) : Int := t + zone.offsetUtc t

/-- Time value of a local time value, `UTC(t)` of the language. -/
def toUtc (zone : Zone) (l : Int) : Int := l - zone.offsetLocal l

/-- Effect of `d.setHours(0, 0, 0, 0)` on a time value: the local midnight of its
local day. -/
def setHours0 (zone : Zone) (t : Int) : Int :=
  let localTime := toLocal zone t
  toUtc zone (localTime - localTime % DAY)

/-- Key `d.toISOString().split("T")[0]`, represented by the UTC day number. -/
def isoDateKey (t : Int) : Int := t / DAY

/-- Expression `Math.floor((a - b) / (1000 * 60 * 60 * 24))` of the source. -/
def daysBetween (a b : Int) : Int := (a - b) / DAY

/-- Effect of `d.setDate(d.getDate() + k)` between two moments of equal zone
offset: the same time of day, `k` days later. -/
def addDays (t k : Int) : Int := t + k * DAY

/-- Day number of the civil date `y`-`m`-`d` (month `m` counted from 1). -/
def daysFromCivil (y m d : Int) : Int :=
  let y1 := if m ≤ 2 then y - 1 else y
  let era := y1 / 400
  let yoe := y1 - era * 400
  let mp := if m > 2 then m - 3 else m + 9
  let doy := (153 * mp + 2) / 5 + d - 1
  let doe := yoe * 365 + yoe / 4 - yoe / 100 + doy
  era * 146097 + doe - 719468

/-- Civil date (year, month counted from 1, day of month) of a day number. -/
def civilFromDays (z0 : Int) : Int × Int × Int :=
  let z := z0 + 719468
  let era := z / 146097
  let doe := z - era * 146097
  let yoe := (doe - doe / 1460 + doe / 36524 - doe / 146096) / 365
  let doy := doe - (365 * yoe + yoe / 4 - yoe / 100)
  let mp := (5 * doy + 2) / 153
  let d := doy - (153 * mp + 2) / 5 + 1
  let m := if mp < 10 then mp + 3 else mp - 9
  (if m ≤ 2 then yoe + era * 400 + 1 else yoe + era * 400, m, d)

/-- Effect of `d.setFullYear(d.getFullYear() + k)`: the local year is replaced,
local month, day of month and time of day are kept, and a day of month the new
month does not have runs over into the next month. -/
def addYears (zone : Zone) (t k : Int) : Int :=
  let localTime := toLocal zone t
  let ymd := civilFromDays (localTime / DAY)
  toUtc zone
    ((daysFromCivil (ymd.1 + k) ymd.2.1 1 + ymd.2.2 - 1) * DAY + localTime % DAY)

/-! ## Records and the record store -/

/-- One row of `dailyResult` as selected by the service. -/
structure DailyResult where
  date : Int
  completed : Bool
  submissionsCount : Option Int
  deriving DecidableEq, Repr

/-- Failure value of a rejected store call. -/
abbrev Err := String

/-- Direction of an `orderBy: { date: ... }` clause. -/
inductive SortOrder where
  | asc
  | desc
  deriving DecidableEq, Repr

/-- Query `prisma.dailyResult.findMany` on the member's rows: the optional filter
`date: { gte }` followed by `orderBy: { date }`. -/
def findMany (rows : List DailyResult) (gte : Option Int) (order : SortOrder) :
    List DailyResult :=
  let sel := rows.filter (fun r =>
    match gte with
    | none => true
    | some g => decide (g ≤ r.date))
  match order with
  | SortOrder.asc => sel.insertionSort (fun a b => a.date ≤ b.date)
  | SortOrder.desc => sel.insertionSort (fun a b => b.date ≤ a.date)

/-! ## calculateUserStreak -/

/-- Pair returned by `calculateUserStreak`. -/
structure StreakResult where
  currentStreak : Nat
  longestStreak : Nat
  deriving DecidableEq, Repr

/-- Variables of the first loop of `calculateUserStreak`. -/
structure CurrentState where
  currentStreak : Nat
  tempStreak : Nat
  currentDate : Int
  deriving DecidableEq, Repr

/-- First loop of `calculateUserStreak`: the walk from the most recent record
backwards, left at the first record that does not extend the run. -/
def currentLoop (zone : Zone) : List DailyResult → CurrentState → CurrentState
  | [], s => s
  | result :: rest, s =>
    let resultDate := setHours0 zone result.date
    let daysDiff := daysBetween s.currentDate resultDate
    if daysDiff = 0 ∧ result.completed = true then
      currentLoop zone rest
        { currentStreak := s.currentStreak + 1, tempStreak := s.tempStreak + 1,
          currentDate := resultDate }
    else if daysDiff = 1 ∧ s.currentStreak > 0 ∧ result.completed = true then
      currentLoop zone rest
        { currentStreak := s.currentStreak + 1, tempStreak := s.tempStreak + 1,
          currentDate := resultDate }
    else s

/-- Variables of the second loop of `calculateUserStreak`. -/
structure LongestState where
  longestStreak : Nat
  tempStreak : Nat
  prevDate : Option Int
  deriving DecidableEq, Repr

/-- Body of the second loop of `calculateUserStreak` for one record. -/
def longestStep (zone : Zone) (s : LongestState) (result : DailyResult) : LongestState :=
  let resultDate := setHours0 zone result.date
  if result.completed = true then
    let consecutive :=
      match s.prevDate with
      | none => true
      | some prevDate => decide (daysBetween resultDate prevDate = 1)
    if consecutive = true then
      { longestStreak := max s.longestStreak (s.tempStreak + 1),
        tempStreak := s.tempStreak + 1, prevDate := some resultDate }
    else
      { longestStreak := s.longestStreak, tempStreak := 1, prevDate := some resultDate }
  else
    { longestStreak := s.longestStreak, tempStreak := 0, prevDate := some resultDate }

/-- Call `results.sort((a, b) => new Date(a.date) - new Date(b.date))`: a stable
ascending sort on the time value. -/
def sortByDate (results : List DailyResult) : List DailyResult :=
  results.insertionSort (fun a b => a.date ≤ b.date)

/-- Body of the `try` block of `calculateUserStreak` once the query has
returned `results`; `now` is the value of `new Date()`. -/
def streakOf (zone : Zone) (now : Int) (results : List DailyResult) : StreakResult :=
  if results.length = 0 then { currentStreak := 0, longestStreak := 0 }
  else
    let c := currentLoop zone results
      { currentStreak := 0, tempStreak := 0, currentDate := setHours0 zone now }
    let l := (sortByDate results).foldl (longestStep zone)
      { longestStreak := 0, tempStreak := 0, prevDate := none }
    { currentStreak := c.currentStreak, longestStreak := l.longestStreak }

/-- Function `calculateUserStreak`: `table` is the outcome of reading the member's
rows (the rows in storage order, or the failure of the read), `now` the clock.
A failure is caught and replaced by the zero result. -/
def calculateUserStreak (zone : Zone) (now : Int) (table : Except Err (List DailyResult)) :
    StreakResult :=
  match table with
  | Except.ok rows => streakOf zone now (findMany rows none SortOrder.desc)
  | Except.error _ => { currentStreak := 0, longestStreak := 0 }

/-! ## Plain objects used as maps -/

/-- Property read `o[k]` of an object keyed by date keys; `none` is `undefined`. -/
def objGet {β : Type} : List (Int × β) → Int → Option β
  | [], _ => none
  | (k1, v1) :: rest, k => if k1 = k then some v1 else objGet rest k

/-- Assignment `o[k] = v`: an existing property keeps its place, a new one is
added after the others. -/
def objSet {β : Type} : List (Int × β) → Int → β → List (Int × β)
  | [], k, v => [(k, v)]
  | (k1, v1) :: rest, k, v =>
    if k1 = k then (k, v) :: rest else (k1, v1) :: objSet rest k v

/-! ## getUserActivityHeatmap -/

/-- Element `{ date, count }` of the heatmap. -/
structure HeatmapEntry where
  date : Int
  count : Int
  deriving DecidableEq, Repr

/-- Callback of `results.forEach` in `getUserActivityHeatmap`. -/
def activityStep (activityMap : List (Int × Int)) (result : DailyResult) : List (Int × Int) :=
  let dateKey := isoDateKey result.date
  let m1 :=
    match objGet activityMap dateKey with
    | none => objSet activityMap dateKey 0
    | some v => if v = 0 then objSet activityMap dateKey 0 else activityMap
  objSet m1 dateKey ((objGet m1 dateKey).getD 0 + result.submissionsCount.getD 0)

/-- Grouping and conversion of `getUserActivityHeatmap` after the query has
returned `results`. -/
def heatmapOf (results : List DailyResult) : List HeatmapEntry :=
  let activityMap := results.foldl activityStep []
  activityMap.map (fun p => { date := p.1, count := p.2 })

/-- Function `getUserActivityHeatmap`; a failed read is caught and the empty
array returned. -/
def getUserActivityHeatmap (zone : Zone) (now : Int)
    (table : Except Err (List DailyResult)) : Except Err (List HeatmapEntry) :=
  let oneYearAgo := addYears zone now (-1)
  match table with
  | Except.ok rows => Except.ok (heatmapOf (findMany rows (some oneYearAgo) SortOrder.asc))
  | Except.error _ => Except.ok []

/-! ## getUserSubmissionChart -/

/-- Element `{ date, submissions, passed, failed }` of the chart. -/
structure ChartEntry where
  date : Int
  submissions : Int
  passed : Int
  failed : Int
  deriving DecidableEq, Repr

/-- Callback of `results.forEach` in `getUserSubmissionChart`. -/
def chartStep (chartMap : List (Int × ChartEntry)) (result : DailyResult) :
    List (Int × ChartEntry) :=
  let dateKey := isoDateKey result.date
  let fresh : ChartEntry := { date := dateKey, submissions := 0, passed := 0, failed := 0 }
  let m1 :=
    match objGet chartMap dateKey with
    | none => objSet chartMap dateKey fresh
    | some _ => chartMap
  let e := (objGet m1 dateKey).getD fresh
  let e1 := { e with submissions := e.submissions + result.submissionsCount.getD 0 }
  let e2 :=
    if result.completed = true then { e1 with passed := e1.passed + 1 }
    else { e1 with failed := e1.failed + 1 }
  objSet m1 dateKey e2

/-- Loop `while (currentDate <= today)` of `getUserSubmissionChart`. -/
def fillLoop (chartMap : List (Int × ChartEntry)) (today : Int) (currentDate : Int)
    (chartData : List ChartEntry) : List ChartEntry :=
  if currentDate ≤ today then
    let dateKey := isoDateKey currentDate
    fillLoop chartMap today (addDays currentDate 1)
      (chartData ++ [(objGet chartMap dateKey).getD
        { date := dateKey, submissions := 0, passed := 0, failed := 0 }])
  else chartData
termination_by (today - currentDate + 1).toNat
decreasing_by
  simp only [addDays, DAY]
  omega

/-- Grouping and gap filling of `getUserSubmissionChart` after the query has
returned `results`; `thirtyDaysAgo` is the start of the window and `today` the
second reading of the clock. -/
def chartOf (thirtyDaysAgo today : Int) (results : List DailyResult) : List ChartEntry :=
  let chartMap := results.foldl chartStep []
  fillLoop chartMap today thirtyDaysAgo []

/-- Function `getUserSubmissionChart`: `now` is the first `new Date()`, `today`
the one taken after the query; a failed read is caught and the empty array
returned. -/
def getUserSubmissionChart (now today : Int) (table : Except Err (List DailyResult)) :
    Except Err (List ChartEntry) :=
  let thirtyDaysAgo := addDays now (-30)
  match table with
  | Except.ok rows =>
    Except.ok (chartOf thirtyDaysAgo today (findMany rows (some thirtyDaysAgo) SortOrder.asc))
  | Except.error _ => Except.ok []

/-! ## getUserStats -/

/-- Outcomes of the four store calls issued by `getUserStats`. -/
structure Store where
  dailyResults : Except Err (List DailyResult)
  countResults : Except Err Int
  sumPenalties : Except Err (Option Int)
  sumSubmissions : Except Err (Option Int)

/-- Record returned by `getUserStats`. -/
structure UserStats where
  currentStreak : Nat
  longestStreak : Nat
  totalDays : Int
  totalPenalties : Int
  totalSubmissions : Int
  deriving DecidableEq, Repr

/-- Expression `x || 0` on a nullable number. -/
def orZero (x : Option Int) : Int := x.getD 0

/-- Function `getUserStats`: `Promise.all` over the streak computation and the
three aggregate reads; a rejection is logged and thrown again.  Of several
rejections the one of the earliest array position is taken. -/
def getUserStats (zone : Zone) (now : Int) (store : Store) : Except Err UserStats :=
  let streaks := calculateUserStreak zone now store.dailyResults
  match store.countResults, store.sumPenalties, store.sumSubmissions with
  | Except.ok totalResults, Except.ok totalPenalties, Except.ok totalSubmissions =>
    Except.ok
      { currentStreak := streaks.currentStreak
        longestStreak := streaks.longestStreak
        totalDays := totalResults
        totalPenalties := orZero totalPenalties
        totalSubmissions := orZero totalSubmissions }
  | Except.error error, _, _ => Except.error error
  | _, Except.error error, _ => Except.error error
  | _, _, Except.error error => Except.error error

/-! ## Notions of the specification -/

/-- Canonical day of a time value: the number of its UTC calendar day. -/
def canonicalDay (t : Int) : Int := t / DAY

/-- Local calendar day of a time value in the zone of the process. -/
def localDay (zone : Zone) (t : Int) : Int := toLocal zone t / DAY

/-- Reference scan of the specification for the longest streak, one record:
the pair is the running length `run` and the day of the previous record. -/
def specRunStep (s : Nat × Option Int) (r : DailyResult) : Nat × Option Int :=
  let day := canonicalDay r.date
  if r.completed = true ∧ s.2 = some (day - 1) then (s.1 + 1, some day)
  else if r.completed = true then (1, some day)
  else (0, some day)

/-- Values taken by `run` along the reference scan. -/
def specRunValues : List DailyResult → Nat × Option Int → List Nat
  | [], _ => []
  | r :: rest, s => (specRunStep s r).1 :: specRunValues rest (specRunStep s r)

/-- Longest streak of the specification: the maximum of `run` over the records
sorted ascending by canonical day, `0` when `run` is never positive. -/
def specLongestStreak (records : List DailyResult) : Nat :=
  (specRunValues
    (records.insertionSort (fun a b => canonicalDay a.date ≤ canonicalDay b.date))
    (0, none)).foldl max 0

/-- The entry `{ date, submissions: 0, passed: 0, failed: 0 }`. -/
def zeroEntry (d : Int) : ChartEntry := { date := d, submissions := 0, passed := 0, failed := 0 }

/-- Update of a chart entry by one record: the three assignments of the callback
in `getUserSubmissionChart`. -/
def chartAccum (e : ChartEntry) (r : DailyResult) : ChartEntry :=
  { date := e.date
    submissions := e.submissions + r.submissionsCount.getD 0
    passed := if r.completed = true then e.passed + 1 else e.passed
    failed := if r.completed = true then e.failed else e.failed + 1 }

/-- Records of `results` whose day is `d`. -/
def recordsOfDay (d : Int) (results : List DailyResult) : List DailyResult :=
  results.filter (fun r => decide (isoDateKey r.date = d))

/-- Chart entry of the specification for day `d`. -/
def specChartEntry (d : Int) (results : List DailyResult) : ChartEntry :=
  { date := d
    submissions := ((recordsOfDay d results).map (fun r => r.submissionsCount.getD 0)).sum
    passed := ((recordsOfDay d results).countP (fun r => r.completed) : Nat)
    failed := ((recordsOfDay d results).countP (fun r => !r.completed) : Nat) }

/-! ## Auxiliary facts -/

theorem daysBetween_setHours0 (tz a b : Int) :
    daysBetween (setHours0 (fixedZone tz) a) (setHours0 (fixedZone tz) b) =
      localDay (fixedZone tz) a - localDay (fixedZone tz) b := by
  simp only [daysBetween, setHours0, localDay, toLocal, toUtc, fixedZone, DAY]
  omega

theorem localDay_mono (tz : Int) {a b : Int} (h : a ≤ b) :
    localDay (fixedZone tz) a ≤ localDay (fixedZone tz) b := by
  simp only [localDay, toLocal, fixedZone, DAY]
  omega

theorem canonicalDay_mono {a b : Int} (h : a ≤ b) : canonicalDay a ≤ canonicalDay b := by
  unfold canonicalDay DAY
  omega

theorem mem_findMany_none (rows : List DailyResult) (order : SortOrder) (r : DailyResult) :
    r ∈ findMany rows none order ↔ r ∈ rows := by
  unfold findMany
  cases order <;> simp [(List.perm_insertionSort _ _).mem_iff]

theorem perm_findMany_none (rows : List DailyResult) (order : SortOrder) :
    (findMany rows none order).Perm rows := by
  unfold findMany
  cases order <;> simpa using List.perm_insertionSort _ _

theorem findMany_desc_sorted (rows : List DailyResult) (gte : Option Int) :
    (findMany rows gte SortOrder.desc).Pairwise (fun a b => b.date ≤ a.date) := by
  unfold findMany
  have : IsTotal DailyResult (fun a b => b.date ≤ a.date) := ⟨fun a b => le_total _ _⟩
  have : IsTrans DailyResult (fun a b => b.date ≤ a.date) := ⟨fun a b c h1 h2 => le_trans h2 h1⟩
  exact List.sorted_insertionSort _ _

theorem findMany_asc_sorted (rows : List DailyResult) (gte : Option Int) :
    (findMany rows gte SortOrder.asc).Pairwise (fun a b => a.date ≤ b.date) := by
  unfold findMany
  have : IsTotal DailyResult (fun a b => a.date ≤ b.date) := ⟨fun a b => le_total _ _⟩
  have : IsTrans DailyResult (fun a b => a.date ≤ b.date) := ⟨fun a b c h1 h2 => le_trans h1 h2⟩
  exact List.sorted_insertionSort _ _

/-! ## The current streak -/

theorem currentLoop_zero (tz now : Int) (results : List DailyResult)
    (h : ∀ r ∈ results, localDay (fixedZone tz) r.date = localDay (fixedZone tz) now → r.completed = false) :
    (currentLoop (fixedZone tz) results
      { currentStreak := 0, tempStreak := 0, currentDate := setHours0 (fixedZone tz) now }).currentStreak = 0 := by
  cases results with
  | nil => rfl
  | cons r rest =>
    have hr := h r (List.mem_cons_self _ _)
    simp only [currentLoop, daysBetween_setHours0]
    by_cases hc : r.completed = true
    · have : localDay (fixedZone tz) now - localDay (fixedZone tz) r.date ≠ 0 := by
        intro h0
        have := hr (by omega)
        simp [this] at hc
      simp [this]
    · simp [hc]

theorem currentLoop_run (tz : Int) (results : List DailyResult) :
    ∀ (cs ts : Nat) (t : Int), 0 < cs →
      results.Pairwise (fun a b => localDay (fixedZone tz) b.date < localDay (fixedZone tz) a.date) →
      (∀ r ∈ results, localDay (fixedZone tz) r.date < localDay (fixedZone tz) t) →
      ∃ j : Nat,
        (currentLoop (fixedZone tz) results
          { currentStreak := cs, tempStreak := ts, currentDate := setHours0 (fixedZone tz) t }).currentStreak
            = cs + j ∧
        (∀ i : Nat, 1 ≤ i → i ≤ j →
          ∃ r ∈ results, localDay (fixedZone tz) r.date = localDay (fixedZone tz) t - i ∧ r.completed = true) ∧
        (∀ r ∈ results, localDay (fixedZone tz) r.date = localDay (fixedZone tz) t - (j + 1 : Nat) →
          r.completed = false) := by
  induction results with
  | nil =>
    intro cs ts t _ _ _
    exact ⟨0, rfl, fun i h1 h2 => absurd h1 (by omega), fun r hr => absurd hr (List.not_mem_nil r)⟩
  | cons r rest ih =>
    intro cs ts t hcs hsorted hlt
    have hr : localDay (fixedZone tz) r.date < localDay (fixedZone tz) t := hlt r (List.mem_cons_self _ _)
    have hrest : ∀ x ∈ rest, localDay (fixedZone tz) x.date < localDay (fixedZone tz) r.date :=
      (List.pairwise_cons.mp hsorted).1
    have hne : localDay (fixedZone tz) t - localDay (fixedZone tz) r.date ≠ 0 := by omega
    by_cases hstep : localDay (fixedZone tz) t - localDay (fixedZone tz) r.date = 1 ∧ r.completed = true
    · obtain ⟨j, hj, hall, hstop⟩ :=
        ih (cs + 1) (ts + 1) r.date (Nat.succ_pos cs) (List.pairwise_cons.mp hsorted).2 hrest
      refine ⟨j + 1, ?_, ?_, ?_⟩
      · simp only [currentLoop, daysBetween_setHours0]
        rw [if_neg (fun h => hne h.1), if_pos ⟨hstep.1, hcs, hstep.2⟩, hj]
        omega
      · intro i h1 h2
        by_cases hi : i = 1
        · exact ⟨r, List.mem_cons_self _ _, by subst hi; push_cast; omega, hstep.2⟩
        · obtain ⟨x, hx, hday, hc⟩ := hall (i - 1) (by omega) (by omega)
          refine ⟨x, List.mem_cons_of_mem _ hx, ?_, hc⟩
          rw [hday]; push_cast [Nat.cast_sub (show 1 ≤ i by omega)]; omega
      · intro x hx hday
        rcases List.mem_cons.mp hx with rfl | hx
        · push_cast at hday; omega
        · apply hstop x hx
          rw [hday]; push_cast; omega
    · refine ⟨0, ?_, fun i h1 h2 => absurd h1 (by omega), ?_⟩
      · simp only [currentLoop, daysBetween_setHours0]
        rw [if_neg (fun h => hne h.1), if_neg (fun h => hstep ⟨h.1, h.2.2⟩)]
        rfl
      · intro x hx hday
        rcases List.mem_cons.mp hx with rfl | hx
        · by_contra hc
          exact hstep ⟨by push_cast at hday; omega, by simpa using hc⟩
        · have := hrest x hx
          push_cast at hday; omega

theorem currentLoop_anchored (tz now : Int) (results : List DailyResult)
    (hsorted : results.Pairwise (fun a b => localDay (fixedZone tz) b.date < localDay (fixedZone tz) a.date))
    (hpast : ∀ r ∈ results, localDay (fixedZone tz) r.date ≤ localDay (fixedZone tz) now) :
    ∃ k : Nat,
      (currentLoop (fixedZone tz) results
        { currentStreak := 0, tempStreak := 0, currentDate := setHours0 (fixedZone tz) now }).currentStreak = k ∧
      (∀ i : Nat, i < k →
        ∃ r ∈ results, localDay (fixedZone tz) r.date = localDay (fixedZone tz) now - i ∧ r.completed = true) ∧
      (∀ r ∈ results, localDay (fixedZone tz) r.date = localDay (fixedZone tz) now - (k : Nat) →
        r.completed = false) := by
  cases results with
  | nil =>
    exact ⟨0, rfl, fun i h => absurd h (by omega), fun r hr => absurd hr (List.not_mem_nil r)⟩
  | cons r rest =>
    have hr : localDay (fixedZone tz) r.date ≤ localDay (fixedZone tz) now := hpast r (List.mem_cons_self _ _)
    have hrest : ∀ x ∈ rest, localDay (fixedZone tz) x.date < localDay (fixedZone tz) r.date :=
      (List.pairwise_cons.mp hsorted).1
    by_cases hstart : localDay (fixedZone tz) now - localDay (fixedZone tz) r.date = 0 ∧ r.completed = true
    · have hday : localDay (fixedZone tz) r.date = localDay (fixedZone tz) now := by omega
      obtain ⟨j, hj, hall, hstop⟩ :=
        currentLoop_run tz rest 1 1 r.date Nat.one_pos (List.pairwise_cons.mp hsorted).2 hrest
      refine ⟨1 + j, ?_, ?_, ?_⟩
      · simp only [currentLoop, daysBetween_setHours0]
        rw [if_pos hstart]
        exact hj
      · intro i hi
        by_cases h0 : i = 0
        · exact ⟨r, List.mem_cons_self _ _, by subst h0; push_cast; omega, hstart.2⟩
        · obtain ⟨x, hx, hxd, hc⟩ := hall i (by omega) (by omega)
          exact ⟨x, List.mem_cons_of_mem _ hx, by rw [hxd, hday], hc⟩
      · intro x hx hxd
        rcases List.mem_cons.mp hx with rfl | hx
        · push_cast at hxd; omega
        · apply hstop x hx
          rw [hxd, hday]; push_cast; omega
    · refine ⟨0, ?_, fun i h => absurd h (by omega), ?_⟩
      · simp only [currentLoop, daysBetween_setHours0]
        rw [if_neg hstart, if_neg (fun h => absurd h.2.1 (by omega))]
      · intro x hx hxd
        rcases List.mem_cons.mp hx with rfl | hx
        · by_contra hc
          exact hstart ⟨by push_cast at hxd; omega, by simpa using hc⟩
        · have := hrest x hx
          push_cast at hxd; omega

theorem streakOf_currentStreak (zone : Zone) (now : Int) (results : List DailyResult) :
    (streakOf zone now results).currentStreak =
      (currentLoop zone results
        { currentStreak := 0, tempStreak := 0, currentDate := setHours0 zone now }).currentStreak := by
  unfold streakOf
  cases results with
  | nil => rfl
  | cons r rest => simp

/-! ## Claims on `calculateUserStreak` -/

/-- C1, refuted on the code: for a completed record dated today and a record
with `completed = false` three days earlier, `calculateUserStreak` returns
`currentStreak = 1` and `longestStreak = 0`, so `longestStreak ≥ currentStreak`
does not hold.  The branch `tempStreak = 1` of the second loop leaves
`longestStreak` as it is. -/
theorem calculateUserStreak_longest_below_current :
    calculateUserStreak utcZone (10 * DAY + 5)
        (Except.ok [⟨7 * DAY, false, none⟩, ⟨10 * DAY, true, none⟩])
      = { currentStreak := 1, longestStreak := 0 } ∧
    ¬ ((calculateUserStreak utcZone (10 * DAY + 5)
        (Except.ok [⟨7 * DAY, false, none⟩, ⟨10 * DAY, true, none⟩])).longestStreak
      ≥ (calculateUserStreak utcZone (10 * DAY + 5)
        (Except.ok [⟨7 * DAY, false, none⟩, ⟨10 * DAY, true, none⟩])).currentStreak) := by
  decide

/-- C2, refuted on the code: for a record with `completed = false` on day 0
followed by a completed record on day 5 the reference scan of the specification
reaches `run = 1`, while `calculateUserStreak` returns `longestStreak = 0`. -/
theorem calculateUserStreak_longest_differs_from_scan :
    specLongestStreak [⟨0, false, none⟩, ⟨5 * DAY, true, none⟩] = 1 ∧
    (calculateUserStreak utcZone (20 * DAY)
      (Except.ok [⟨0, false, none⟩, ⟨5 * DAY, true, none⟩])).longestStreak = 0 := by
  decide

/-- C3 as stated, refuted at three inputs, each with one record per day.
(a) In UTC, with a completed record dated today, no record yesterday and a
record dated tomorrow, the number `k` of the claim is 1 and the code returns 0.
(b) In a zone 5 h 30 min ahead of UTC, at 20:00 UTC of day 10 with one completed
record at UTC midnight of day 10, `k` is 1 on canonical days and the code
returns 0, the local day being day 11.
(c) In a zone with a daylight-saving change, a completed record of the day
before today, on canonical and on local days, gives `k = 0` and the code
returns 1, the two local midnights being 23 hours apart. -/
theorem currentStreak_days_back_counterexample :
    (([(⟨11 * DAY, false, none⟩ : DailyResult), ⟨10 * DAY, true, none⟩].map
        (fun r => canonicalDay r.date)).Nodup ∧
      (∃ r ∈ [(⟨11 * DAY, false, none⟩ : DailyResult), ⟨10 * DAY, true, none⟩],
        canonicalDay r.date = canonicalDay (10 * DAY) ∧ r.completed = true) ∧
      (∀ r ∈ [(⟨11 * DAY, false, none⟩ : DailyResult), ⟨10 * DAY, true, none⟩],
        canonicalDay r.date ≠ canonicalDay (10 * DAY) - 1) ∧
      (calculateUserStreak utcZone (10 * DAY)
        (Except.ok [⟨11 * DAY, false, none⟩, ⟨10 * DAY, true, none⟩])).currentStreak = 0) ∧
    ((∃ r ∈ [(⟨10 * DAY, true, none⟩ : DailyResult)],
        canonicalDay r.date = canonicalDay (10 * DAY + 72000000) ∧ r.completed = true) ∧
      (∀ r ∈ [(⟨10 * DAY, true, none⟩ : DailyResult)],
        canonicalDay r.date ≠ canonicalDay (10 * DAY + 72000000) - 1) ∧
      (calculateUserStreak (fixedZone 19800000) (10 * DAY + 72000000)
        (Except.ok [⟨10 * DAY, true, none⟩])).currentStreak = 0) ∧
    ((∀ r ∈ [(⟨10 * DAY + 21600000, true, none⟩ : DailyResult)],
        canonicalDay r.date = canonicalDay (11 * DAY + 72000000) - 1 ∧
        localDay springForwardZone r.date
          = localDay springForwardZone (11 * DAY + 72000000) - 1) ∧
      (calculateUserStreak springForwardZone (11 * DAY + 72000000)
        (Except.ok [⟨10 * DAY + 21600000, true, none⟩])).currentStreak = 1) := by
  decide

/-- C3, amended: in a zone without offset change, for rows with at most one
record per local calendar day and no record dated after today, the
`currentStreak` returned by `calculateUserStreak` is the number `k` such that
each of the local days today, today-1, ..., today-(k-1) has a record with
`completed = true` and day today-k has no record or a record with
`completed = false`. -/
theorem currentStreak_counts_days_back_from_today (tz now : Int) (rows : List DailyResult)
    (hdistinct : (rows.map (fun r => localDay (fixedZone tz) r.date)).Nodup)
    (hpast : ∀ r ∈ rows, localDay (fixedZone tz) r.date ≤ localDay (fixedZone tz) now) :
    (∀ i : Nat, i < (calculateUserStreak (fixedZone tz) now (Except.ok rows)).currentStreak →
      ∃ r ∈ rows, localDay (fixedZone tz) r.date = localDay (fixedZone tz) now - i ∧
        r.completed = true) ∧
    (∀ r ∈ rows,
      localDay (fixedZone tz) r.date
          = localDay (fixedZone tz) now -
            ((calculateUserStreak (fixedZone tz) now (Except.ok rows)).currentStreak : Nat) →
        r.completed = false) := by
  have hperm := perm_findMany_none rows SortOrder.desc
  have hnodup : ((findMany rows none SortOrder.desc).map
      (fun r => localDay (fixedZone tz) r.date)).Nodup :=
    (hperm.map _).nodup_iff.mpr hdistinct
  have hsorted : (findMany rows none SortOrder.desc).Pairwise
      (fun a b => localDay (fixedZone tz) b.date < localDay (fixedZone tz) a.date) := by
    have h1 : (findMany rows none SortOrder.desc).Pairwise
        (fun a b => localDay (fixedZone tz) b.date ≤ localDay (fixedZone tz) a.date) :=
      (findMany_desc_sorted rows none).imp (fun h => localDay_mono tz h)
    have h2 : (findMany rows none SortOrder.desc).Pairwise
        (fun a b => localDay (fixedZone tz) a.date ≠ localDay (fixedZone tz) b.date) :=
      List.pairwise_map.mp hnodup
    exact (h1.and h2).imp (fun h => lt_of_le_of_ne h.1 (fun e => h.2 e.symm))
  obtain ⟨k, hk, hall, hstop⟩ := currentLoop_anchored tz now (findMany rows none SortOrder.desc)
    hsorted (fun r hr => hpast r ((mem_findMany_none rows _ r).mp hr))
  have hcur : (calculateUserStreak (fixedZone tz) now (Except.ok rows)).currentStreak = k := by
    simp only [calculateUserStreak]
    rw [streakOf_currentStreak, hk]
  rw [hcur]
  refine ⟨fun i hi => ?_, fun r hr hday => ?_⟩
  · obtain ⟨r, hr, h⟩ := hall i hi
    exact ⟨r, (mem_findMany_none rows _ r).mp hr, h⟩
  · exact hstop r ((mem_findMany_none rows _ r).mpr hr) hday

/-- Scenario C of the specification as an instance of the amended C3, in a zone
5 h 30 min ahead of UTC: completed records today, yesterday and on the days 10
to 15 before today. -/
theorem currentStreak_counts_days_back_from_today_witness :
    (([⟨100 * DAY, true, none⟩, ⟨99 * DAY, true, none⟩, ⟨90 * DAY, true, none⟩,
        ⟨89 * DAY, true, none⟩, ⟨88 * DAY, true, none⟩, ⟨87 * DAY, true, none⟩,
        ⟨86 * DAY, true, none⟩, ⟨85 * DAY, true, none⟩] : List DailyResult).map
        (fun r => localDay (fixedZone 19800000) r.date)).Nodup ∧
    (∀ r ∈ ([⟨100 * DAY, true, none⟩, ⟨99 * DAY, true, none⟩, ⟨90 * DAY, true, none⟩,
        ⟨89 * DAY, true, none⟩, ⟨88 * DAY, true, none⟩, ⟨87 * DAY, true, none⟩,
        ⟨86 * DAY, true, none⟩, ⟨85 * DAY, true, none⟩] : List DailyResult),
        localDay (fixedZone 19800000) r.date
          ≤ localDay (fixedZone 19800000) (100 * DAY + 4711)) ∧
    (calculateUserStreak (fixedZone 19800000) (100 * DAY + 4711)
      (Except.ok [⟨100 * DAY, true, none⟩, ⟨99 * DAY, true, none⟩, ⟨90 * DAY, true, none⟩,
        ⟨89 * DAY, true, none⟩, ⟨88 * DAY, true, none⟩, ⟨87 * DAY, true, none⟩,
        ⟨86 * DAY, true, none⟩, ⟨85 * DAY, true, none⟩])).currentStreak = 2 ∧
    ((∀ i : Nat, i < (calculateUserStreak (fixedZone 19800000) (100 * DAY + 4711)
      (Except.ok [⟨100 * DAY, true, none⟩, ⟨99 * DAY, true, none⟩, ⟨90 * DAY, true, none⟩,
        ⟨89 * DAY, true, none⟩, ⟨88 * DAY, true, none⟩, ⟨87 * DAY, true, none⟩,
        ⟨86 * DAY, true, none⟩, ⟨85 * DAY, true, none⟩])).currentStreak →
      ∃ r ∈ ([⟨100 * DAY, true, none⟩, ⟨99 * DAY, true, none⟩, ⟨90 * DAY, true, none⟩,
        ⟨89 * DAY, true, none⟩, ⟨88 * DAY, true, none⟩, ⟨87 * DAY, true, none⟩,
        ⟨86 * DAY, true, none⟩, ⟨85 * DAY, true, none⟩] : List DailyResult),
        localDay (fixedZone 19800000) r.date
          = localDay (fixedZone 19800000) (100 * DAY + 4711) - i ∧ r.completed = true) ∧
    (∀ r ∈ ([⟨100 * DAY, true, none⟩, ⟨99 * DAY, true, none⟩, ⟨90 * DAY, true, none⟩,
        ⟨89 * DAY, true, none⟩, ⟨88 * DAY, true, none⟩, ⟨87 * DAY, true, none⟩,
        ⟨86 * DAY, true, none⟩, ⟨85 * DAY, true, none⟩] : List DailyResult),
      localDay (fixedZone 19800000) r.date
          = localDay (fixedZone 19800000) (100 * DAY + 4711) -
            ((calculateUserStreak (fixedZone 19800000) (100 * DAY + 4711)
      (Except.ok [⟨100 * DAY, true, none⟩, ⟨99 * DAY, true, none⟩, ⟨90 * DAY, true, none⟩,
        ⟨89 * DAY, true, none⟩, ⟨88 * DAY, true, none⟩, ⟨87 * DAY, true, none⟩,
        ⟨86 * DAY, true, none⟩, ⟨85 * DAY, true, none⟩])).currentStreak : Nat) →
        r.completed = false)) :=
  ⟨by decide, by decide, by decide,
    currentStreak_counts_days_back_from_today 19800000 (100 * DAY + 4711) _
      (by decide) (by decide)⟩

/-- C4 as stated, refuted at two inputs.
(a) In a zone five hours behind UTC, at 02:00 UTC of day 10 with one completed
record at 12:00 UTC of day 9: no record has canonical day 10, and the code
returns `currentStreak = 1`, both moments being of local day 9.
(b) In a zone with a daylight-saving change, a completed record of the day
before today, on canonical and on local days: the code returns
`currentStreak = 1`, the two local midnights being 23 hours apart. -/
theorem currentStreak_without_today_counterexample :
    ((∀ r ∈ [(⟨9 * DAY + 43200000, true, none⟩ : DailyResult)],
        canonicalDay r.date ≠ canonicalDay (10 * DAY + 7200000)) ∧
      (calculateUserStreak (fixedZone (-18000000)) (10 * DAY + 7200000)
        (Except.ok [⟨9 * DAY + 43200000, true, none⟩])).currentStreak = 1) ∧
    ((∀ r ∈ [(⟨10 * DAY + 21600000, true, none⟩ : DailyResult)],
        canonicalDay r.date ≠ canonicalDay (11 * DAY + 72000000) ∧
        localDay springForwardZone r.date ≠ localDay springForwardZone (11 * DAY + 72000000)) ∧
      (calculateUserStreak springForwardZone (11 * DAY + 72000000)
        (Except.ok [⟨10 * DAY + 21600000, true, none⟩])).currentStreak = 1) := by
  decide

/-- C4, amended: in a zone without offset change, when no record whose local
calendar day equals today has `completed = true`, `calculateUserStreak` returns
`currentStreak = 0`, whatever the other records are. -/
theorem currentStreak_zero_without_today (tz now : Int) (rows : List DailyResult)
    (h : ∀ r ∈ rows, localDay (fixedZone tz) r.date = localDay (fixedZone tz) now →
      r.completed = false) :
    (calculateUserStreak (fixedZone tz) now (Except.ok rows)).currentStreak = 0 := by
  simp only [calculateUserStreak]
  rw [streakOf_currentStreak]
  exact currentLoop_zero tz now _ (fun r hr => h r ((mem_findMany_none rows _ r).mp hr))

/-- Scenario D of the specification as an instance of the amended C4, in a zone
five hours behind UTC: the only record is a completed one dated yesterday. -/
theorem currentStreak_zero_without_today_witness :
    (∀ r ∈ [(⟨9 * DAY + 43200000, true, none⟩ : DailyResult)],
      localDay (fixedZone (-18000000)) r.date
          = localDay (fixedZone (-18000000)) (10 * DAY + 43200000) →
        r.completed = false) ∧
    (calculateUserStreak (fixedZone (-18000000)) (10 * DAY + 43200000)
      (Except.ok [⟨9 * DAY + 43200000, true, none⟩])).currentStreak = 0 :=
  ⟨by decide, currentStreak_zero_without_today (-18000000) (10 * DAY + 43200000) _ (by decide)⟩

/-! ## The submission chart -/

theorem objGet_objSet {β : Type} (o : List (Int × β)) (k k1 : Int) (v : β) :
    objGet (objSet o k v) k1 = if k = k1 then some v else objGet o k1 := by
  induction o with
  | nil => simp [objSet, objGet]
  | cons p rest ih =>
    obtain ⟨a, b⟩ := p
    by_cases h : a = k
    · subst h
      by_cases h1 : a = k1 <;> simp [objSet, objGet, h1]
    · by_cases h1 : k = k1
      · subst h1
        simp [objSet, objGet, h, ih]
      · simp [objSet, objGet, h, h1, ih]

theorem objGet_chartStep (o : List (Int × ChartEntry)) (r : DailyResult) (d : Int) :
    (objGet (chartStep o r) d).getD (zeroEntry d) =
      if isoDateKey r.date = d then chartAccum ((objGet o d).getD (zeroEntry d)) r
      else (objGet o d).getD (zeroEntry d) := by
  unfold chartStep
  simp only [objGet_objSet]
  by_cases h : isoDateKey r.date = d
  · subst h
    simp only [if_true, Option.getD_some]
    cases hg : objGet o (isoDateKey r.date) with
    | none =>
      simp only [objGet_objSet, if_true, Option.getD_some, Option.getD_none]
      cases hc : r.completed <;> simp [chartAccum, zeroEntry, hc]
    | some e =>
      simp only [hg, Option.getD_some]
      cases hc : r.completed <;> simp [chartAccum, hc]
  · simp only [if_neg h]
    cases hg : objGet o (isoDateKey r.date) with
    | none => simp [objGet_objSet, h]
    | some e => simp

theorem objGet_foldl_chartStep (results : List DailyResult) :
    ∀ (o : List (Int × ChartEntry)) (d : Int),
      (objGet (results.foldl chartStep o) d).getD (zeroEntry d) =
        (recordsOfDay d results).foldl chartAccum ((objGet o d).getD (zeroEntry d)) := by
  induction results with
  | nil => intro o d; rfl
  | cons r rest ih =>
    intro o d
    rw [List.foldl_cons, ih, objGet_chartStep]
    by_cases h : isoDateKey r.date = d
    · simp [recordsOfDay, h]
    · simp [recordsOfDay, h]

theorem foldl_chartAccum (l : List DailyResult) :
    ∀ e : ChartEntry, l.foldl chartAccum e =
      { date := e.date
        submissions := e.submissions + (l.map (fun r => r.submissionsCount.getD 0)).sum
        passed := e.passed + (l.countP (fun r => r.completed) : Nat)
        failed := e.failed + (l.countP (fun r => !r.completed) : Nat) } := by
  induction l with
  | nil => intro e; simp
  | cons r rest ih =>
    intro e
    rw [List.foldl_cons, ih]
    cases hc : r.completed <;> simp [chartAccum, hc, List.countP_cons] <;> omega

theorem chartMap_entry (results : List DailyResult) (d : Int) :
    (objGet (results.foldl chartStep []) d).getD
        { date := d, submissions := 0, passed := 0, failed := 0 } =
      specChartEntry d results := by
  have h := objGet_foldl_chartStep results [] d
  rw [foldl_chartAccum] at h
  simpa [zeroEntry, specChartEntry, objGet] using h

theorem fillLoop_eq (chartMap : List (Int × ChartEntry)) (today : Int) :
    ∀ (n : Nat) (cur : Int) (acc : List ChartEntry),
      today < cur + n * DAY → (∀ i : Nat, i < n → cur + i * DAY ≤ today) →
      fillLoop chartMap today cur acc =
        acc ++ (List.range n).map (fun (i : Nat) =>
          (objGet chartMap (isoDateKey (cur + (i : Int) * DAY))).getD
            { date := isoDateKey (cur + (i : Int) * DAY),
              submissions := 0, passed := 0, failed := 0 }) := by
  intro n
  induction n with
  | zero =>
    intro cur acc h _
    rw [fillLoop, if_neg (by simpa using h)]
    simp
  | succ n ih =>
    intro cur acc h hall
    have h0 : cur ≤ today := by simpa using hall 0 (Nat.succ_pos n)
    rw [fillLoop, if_pos h0]
    simp only []
    rw [ih (addDays cur 1) _ (by simp only [addDays]; push_cast at h; linarith)
      (fun i hi => by
        have := hall (i + 1) (by omega)
        simp only [addDays]; push_cast at this; linarith)]
    rw [List.range_succ_eq_map, List.map_cons, List.map_map, List.append_assoc]
    simp only [List.singleton_append, addDays]
    congr 2
    · simp
    · apply List.map_congr_left
      intro i _
      simp only [Function.comp]
      have : cur + 1 * DAY + (i : Int) * DAY = cur + ((i + 1 : Nat) : Int) * DAY := by
        push_cast; ring
      rw [this]

theorem isoDateKey_window (now : Int) (i : Nat) :
    isoDateKey (addDays now (-30) + (i : Int) * DAY) = isoDateKey now - 30 + i := by
  unfold isoDateKey addDays DAY
  omega

theorem chartOf_eq (now today : Int) (results : List DailyResult)
    (h1 : now ≤ today) (h2 : today < now + DAY) :
    chartOf (addDays now (-30)) today results =
      (List.range 31).map (fun (i : Nat) => specChartEntry (isoDateKey now - 30 + i) results) := by
  unfold chartOf
  rw [fillLoop_eq _ today 31 (addDays now (-30)) []
    (by unfold addDays DAY at *; push_cast; omega)
    (fun i hi => by unfold addDays DAY at *; omega)]
  rw [List.nil_append]
  apply List.map_congr_left
  intro i _
  rw [isoDateKey_window, chartMap_entry]

theorem mem_findMany_some (rows : List DailyResult) (g : Int) (order : SortOrder)
    (r : DailyResult) : r ∈ findMany rows (some g) order ↔ r ∈ rows ∧ g ≤ r.date := by
  unfold findMany
  cases order <;> simp [(List.perm_insertionSort _ _).mem_iff]

theorem specChartEntry_nonneg (d : Int) (results : List DailyResult)
    (h : ∀ r ∈ results, 0 ≤ r.submissionsCount.getD 0) :
    0 ≤ (specChartEntry d results).submissions ∧ 0 ≤ (specChartEntry d results).passed ∧
      0 ≤ (specChartEntry d results).failed := by
  refine ⟨?_, Int.natCast_nonneg _, Int.natCast_nonneg _⟩
  apply List.sum_nonneg
  intro x hx
  obtain ⟨r, hr, rfl⟩ := List.mem_map.mp hx
  exact h r (List.mem_filter.mp hr).1

/-! ## The activity heatmap -/

theorem keys_objSet {β : Type} (o : List (Int × β)) (k : Int) (v : β) :
    (objSet o k v).map Prod.fst =
      if k ∈ o.map Prod.fst then o.map Prod.fst else o.map Prod.fst ++ [k] := by
  induction o with
  | nil => simp [objSet]
  | cons p rest ih =>
    obtain ⟨a, b⟩ := p
    by_cases h : a = k
    · subst h
      simp [objSet]
    · have h1 : ¬ k = a := fun e => h e.symm
      by_cases hm : k ∈ rest.map Prod.fst
      · simp only [objSet, if_neg h, List.map_cons, ih, if_pos hm, List.mem_cons, h1, false_or]
      · simp only [objSet, if_neg h, List.map_cons, ih, if_neg hm, List.mem_cons, h1, false_or,
          List.cons_append]

theorem objGet_isSome_iff {β : Type} (o : List (Int × β)) (k : Int) :
    (objGet o k).isSome = true ↔ k ∈ o.map Prod.fst := by
  induction o with
  | nil => simp [objGet]
  | cons p rest ih =>
    obtain ⟨a, b⟩ := p
    by_cases h : a = k
    · simp [objGet, h]
    · have h1 : ¬ k = a := fun e => h e.symm
      simp [objGet, h, h1, ih]

theorem objGet_of_mem {β : Type} (o : List (Int × β)) (k : Int) (v : β)
    (hnodup : (o.map Prod.fst).Nodup) (hmem : (k, v) ∈ o) : objGet o k = some v := by
  induction o with
  | nil => cases hmem
  | cons p rest ih =>
    obtain ⟨a, b⟩ := p
    rw [List.map_cons, List.nodup_cons] at hnodup
    rcases List.mem_cons.mp hmem with heq | hin
    · cases heq
      simp [objGet]
    · have hne : a ≠ k := by
        intro e
        subst e
        exact hnodup.1 (List.mem_map.mpr ⟨(a, v), hin, rfl⟩)
      simp only [objGet, if_neg hne]
      exact ih hnodup.2 hin

theorem keys_activityStep (o : List (Int × Int)) (r : DailyResult) :
    (activityStep o r).map Prod.fst =
      if isoDateKey r.date ∈ o.map Prod.fst then o.map Prod.fst
      else o.map Prod.fst ++ [isoDateKey r.date] := by
  unfold activityStep
  simp only []
  cases hg : objGet o (isoDateKey r.date) with
  | none =>
    have hnot : isoDateKey r.date ∉ o.map Prod.fst := by
      rw [← objGet_isSome_iff, hg]; simp
    simp only [keys_objSet, if_neg hnot]
    simp
  | some v =>
    have hin : isoDateKey r.date ∈ o.map Prod.fst := by
      rw [← objGet_isSome_iff, hg]; simp
    by_cases hv : v = 0
    · simp only [hv, if_true, keys_objSet, if_pos hin]
    · simp only [hv, if_false, keys_objSet, if_pos hin]

theorem objGet_activityStep (o : List (Int × Int)) (r : DailyResult) (d : Int) :
    (objGet (activityStep o r) d).getD 0 =
      if isoDateKey r.date = d then (objGet o d).getD 0 + r.submissionsCount.getD 0
      else (objGet o d).getD 0 := by
  unfold activityStep
  simp only [objGet_objSet]
  by_cases h : isoDateKey r.date = d
  · subst h
    simp only [if_true, Option.getD_some]
    cases hg : objGet o (isoDateKey r.date) with
    | none => simp [objGet_objSet]
    | some v =>
      by_cases hv : v = 0
      · simp [hv, objGet_objSet]
      · simp [hv, hg]
  · simp only [if_neg h]
    cases hg : objGet o (isoDateKey r.date) with
    | none => simp [objGet_objSet, h]
    | some v =>
      by_cases hv : v = 0
      · simp [hv, objGet_objSet, h]
      · simp [hv]

theorem objGet_foldl_activityStep (results : List DailyResult) :
    ∀ (o : List (Int × Int)) (d : Int),
      (objGet (results.foldl activityStep o) d).getD 0 =
        (objGet o d).getD 0 +
          ((recordsOfDay d results).map (fun r => r.submissionsCount.getD 0)).sum := by
  induction results with
  | nil => intro o d; simp [recordsOfDay]
  | cons r rest ih =>
    intro o d
    rw [List.foldl_cons, ih, objGet_activityStep]
    by_cases h : isoDateKey r.date = d
    · simp [recordsOfDay, h, add_assoc]
    · simp [recordsOfDay, h]

theorem mem_keys_foldl_activityStep (results : List DailyResult) :
    ∀ (o : List (Int × Int)) (d : Int),
      d ∈ (results.foldl activityStep o).map Prod.fst ↔
        d ∈ o.map Prod.fst ∨ ∃ r ∈ results, isoDateKey r.date = d := by
  induction results with
  | nil => intro o d; simp
  | cons r rest ih =>
    intro o d
    rw [List.foldl_cons, ih, keys_activityStep]
    by_cases hin : isoDateKey r.date ∈ o.map Prod.fst
    · rw [if_pos hin]
      constructor
      · rintro (h | ⟨x, hx, hd⟩)
        · exact Or.inl h
        · exact Or.inr ⟨x, List.mem_cons_of_mem _ hx, hd⟩
      · rintro (h | ⟨x, hx, hd⟩)
        · exact Or.inl h
        · rcases List.mem_cons.mp hx with rfl | hx
          · exact Or.inl (hd ▸ hin)
          · exact Or.inr ⟨x, hx, hd⟩
    · rw [if_neg hin]
      constructor
      · rintro (h | ⟨x, hx, hd⟩)
        · rcases List.mem_append.mp h with h | h
          · exact Or.inl h
          · exact Or.inr ⟨r, List.mem_cons_self _ _, (List.mem_singleton.mp h).symm⟩
        · exact Or.inr ⟨x, List.mem_cons_of_mem _ hx, hd⟩
      · rintro (h | ⟨x, hx, hd⟩)
        · exact Or.inl (List.mem_append.mpr (Or.inl h))
        · rcases List.mem_cons.mp hx with rfl | hx
          · exact Or.inl (List.mem_append.mpr (Or.inr (List.mem_singleton.mpr hd.symm)))
          · exact Or.inr ⟨x, hx, hd⟩

theorem keys_foldl_activityStep_nodup (results : List DailyResult) :
    ∀ o : List (Int × Int), (o.map Prod.fst).Nodup →
      ((results.foldl activityStep o).map Prod.fst).Nodup := by
  induction results with
  | nil => intro o h; exact h
  | cons r rest ih =>
    intro o h
    rw [List.foldl_cons]
    apply ih
    rw [keys_activityStep]
    by_cases hin : isoDateKey r.date ∈ o.map Prod.fst
    · rw [if_pos hin]; exact h
    · rw [if_neg hin]
      exact List.Nodup.append h (List.nodup_singleton _) (by simpa using hin)

theorem keys_foldl_activityStep_sorted (results : List DailyResult) :
    ∀ o : List (Int × Int), (o.map Prod.fst).Pairwise (fun a b => a < b) →
      (∀ k ∈ o.map Prod.fst, ∀ r ∈ results, k ≤ isoDateKey r.date) →
      results.Pairwise (fun a b => isoDateKey a.date ≤ isoDateKey b.date) →
      ((results.foldl activityStep o).map Prod.fst).Pairwise (fun a b => a < b) := by
  induction results with
  | nil => intro o h _ _; exact h
  | cons r rest ih =>
    intro o h hle hsorted
    rw [List.foldl_cons]
    have hrest := List.pairwise_cons.mp hsorted
    by_cases hin : isoDateKey r.date ∈ o.map Prod.fst
    · apply ih
      · rw [keys_activityStep, if_pos hin]; exact h
      · rw [keys_activityStep, if_pos hin]
        exact fun k hk x hx => hle k hk x (List.mem_cons_of_mem _ hx)
      · exact hrest.2
    · apply ih
      · rw [keys_activityStep, if_neg hin]
        rw [List.pairwise_append]
        refine ⟨h, List.pairwise_singleton _ _, ?_⟩
        intro a ha b hb
        rw [List.mem_singleton] at hb
        subst hb
        exact lt_of_le_of_ne (hle a ha r (List.mem_cons_self _ _)) (fun e => hin (e ▸ ha))
      · rw [keys_activityStep, if_neg hin]
        intro k hk x hx
        rcases List.mem_append.mp hk with hk | hk
        · exact hle k hk x (List.mem_cons_of_mem _ hx)
        · rw [List.mem_singleton] at hk
          subst hk
          exact hrest.1 x hx
      · exact hrest.2

theorem heatmapOf_dates (results : List DailyResult) :
    (heatmapOf results).map (fun e => e.date) =
      (results.foldl activityStep []).map Prod.fst := by
  unfold heatmapOf
  simp [List.map_map, Function.comp]

theorem heatmapOf_count (results : List DailyResult) (e : HeatmapEntry)
    (he : e ∈ heatmapOf results) :
    e.count = ((recordsOfDay e.date results).map (fun r => r.submissionsCount.getD 0)).sum := by
  unfold heatmapOf at he
  obtain ⟨p, hp, rfl⟩ := List.mem_map.mp he
  have hget := objGet_of_mem _ p.1 p.2
    (keys_foldl_activityStep_nodup results [] List.nodup_nil) hp
  have hsum := objGet_foldl_activityStep results [] p.1
  rw [hget] at hsum
  simpa [objGet] using hsum

theorem activityStep_completed (o : List (Int × Int)) (r : DailyResult) (b : Bool) :
    activityStep o { r with completed := b } = activityStep o r := rfl

/-! ## Claims on `getUserSubmissionChart` -/

/-- C5: for rows with non-negative `submissionsCount` and clock readings `now`
(before the query) and `today` (after it, less than a day later),
`getUserSubmissionChart` returns exactly 31 entries, dated with the consecutive
days today-30, ..., today in ascending order, each with non-negative
`submissions`, `passed` and `failed`; with no rows all 31 entries are zero. -/
theorem getUserSubmissionChart_dense (now today : Int) (rows : List DailyResult)
    (h1 : now ≤ today) (h2 : today < now + DAY)
    (hsub : ∀ r ∈ rows, 0 ≤ r.submissionsCount.getD 0) :
    ∃ chartData : List ChartEntry,
      getUserSubmissionChart now today (Except.ok rows) = Except.ok chartData ∧
      chartData.length = 31 ∧
      chartData.map (fun e => e.date) =
        (List.range 31).map (fun (i : Nat) => isoDateKey now - 30 + (i : Int)) ∧
      (∀ e ∈ chartData, 0 ≤ e.submissions ∧ 0 ≤ e.passed ∧ 0 ≤ e.failed) ∧
      getUserSubmissionChart now today (Except.ok []) =
        Except.ok ((List.range 31).map (fun (i : Nat) =>
          ({ date := isoDateKey now - 30 + (i : Int), submissions := 0, passed := 0,
             failed := 0 } : ChartEntry))) := by
  refine ⟨_, rfl, ?_, ?_, ?_, ?_⟩
  · rw [chartOf_eq now today _ h1 h2]
    simp
  · rw [chartOf_eq now today _ h1 h2]
    simp [List.map_map, Function.comp, specChartEntry]
  · rw [chartOf_eq now today _ h1 h2]
    intro e he
    obtain ⟨i, _, rfl⟩ := List.mem_map.mp he
    exact specChartEntry_nonneg _ _
      (fun r hr => hsub r ((mem_findMany_some rows _ _ r).mp hr).1)
  · simp only [getUserSubmissionChart]
    rw [chartOf_eq now today _ h1 h2]
    simp [findMany, specChartEntry, recordsOfDay]

/-- Instance of C5: two records on day 999 seen from day 1000. -/
theorem getUserSubmissionChart_dense_witness :
    (1000 * DAY + 77 ≤ 1000 * DAY + 78) ∧ (1000 * DAY + 78 < 1000 * DAY + 77 + DAY) ∧
    (∀ r ∈ [(⟨999 * DAY + 5, false, some 3⟩ : DailyResult), ⟨999 * DAY, true, some 4⟩],
      0 ≤ r.submissionsCount.getD 0) ∧
    (∃ chartData : List ChartEntry,
      getUserSubmissionChart (1000 * DAY + 77) (1000 * DAY + 78)
        (Except.ok [⟨999 * DAY + 5, false, some 3⟩, ⟨999 * DAY, true, some 4⟩])
          = Except.ok chartData ∧
      chartData.length = 31 ∧
      chartData.map (fun e => e.date) =
        (List.range 31).map (fun (i : Nat) => isoDateKey (1000 * DAY + 77) - 30 + (i : Int)) ∧
      (∀ e ∈ chartData, 0 ≤ e.submissions ∧ 0 ≤ e.passed ∧ 0 ≤ e.failed) ∧
      getUserSubmissionChart (1000 * DAY + 77) (1000 * DAY + 78) (Except.ok []) =
        Except.ok ((List.range 31).map (fun (i : Nat) =>
          ({ date := isoDateKey (1000 * DAY + 77) - 30 + (i : Int), submissions := 0,
             passed := 0, failed := 0 } : ChartEntry)))) :=
  ⟨by decide, by decide, by decide,
    getUserSubmissionChart_dense (1000 * DAY + 77) (1000 * DAY + 78) _
      (by decide) (by decide) (by decide)⟩

/-- C6: for the records `results` returned by the chart's query, the entry
emitted for each of the 31 days `d` has `submissions` equal to the sum of
`submissionsCount` (absent counted as 0) over the returned records of day `d`,
`passed` equal to the number of those with `completed = true` and `failed` to
the number with `completed = false`; a day without returned record gets the
zero entry. -/
theorem chart_entry_aggregates_day (now today : Int) (results : List DailyResult)
    (h1 : now ≤ today) (h2 : today < now + DAY) :
    chartOf (addDays now (-30)) today results =
      (List.range 31).map (fun (i : Nat) =>
        ({ date := isoDateKey now - 30 + (i : Int)
           submissions :=
            ((results.filter (fun r => decide (isoDateKey r.date = isoDateKey now - 30 + (i : Int)))).map
              (fun r => r.submissionsCount.getD 0)).sum
           passed :=
            (((results.filter (fun r => decide (isoDateKey r.date = isoDateKey now - 30 + (i : Int)))).countP
              (fun r => r.completed) : Nat) : Int)
           failed :=
            (((results.filter (fun r => decide (isoDateKey r.date = isoDateKey now - 30 + (i : Int)))).countP
              (fun r => !r.completed) : Nat) : Int) } : ChartEntry)) :=
  chartOf_eq now today results h1 h2

/-- Scenario E of the specification as an instance of C6: two records of day 999
with `submissionsCount` 3 and 4 give `submissions = 7` for that day. -/
theorem chart_entry_aggregates_day_witness :
    (1000 * DAY + 77 ≤ 1000 * DAY + 78) ∧ (1000 * DAY + 78 < 1000 * DAY + 77 + DAY) ∧
    (chartOf (addDays (1000 * DAY + 77) (-30)) (1000 * DAY + 78)
      [⟨999 * DAY, true, some 3⟩, ⟨999 * DAY + 5, false, some 4⟩]).get? 29
        = some { date := 999, submissions := 7, passed := 1, failed := 1 } :=
  ⟨by decide, by decide, by
    rw [chart_entry_aggregates_day (1000 * DAY + 77) (1000 * DAY + 78) _ (by decide) (by decide)]
    decide⟩

/-! ## Claims on failures of the store -/

/-- C7 as stated, refuted: when the query fails with the error `"store down"`,
`getUserSubmissionChart` and `getUserActivityHeatmap` both return the empty
array instead of failing with that error. -/
theorem failed_query_not_propagated_counterexample :
    getUserSubmissionChart 0 0 (Except.error "store down") = Except.ok [] ∧
    getUserSubmissionChart 0 0 (Except.error "store down") ≠ Except.error "store down" ∧
    getUserActivityHeatmap utcZone 0 (Except.error "store down") = Except.ok [] ∧
    getUserActivityHeatmap utcZone 0 (Except.error "store down")
      ≠ Except.error "store down" := by
  refine ⟨rfl, ?_, rfl, ?_⟩ <;> intro h <;> cases h

/-- C7, amended: when the query made by `getUserSubmissionChart` or by
`getUserActivityHeatmap` fails, the operation catches the error and returns the
empty array; the error does not reach the caller. -/
theorem failed_query_returns_empty (zone : Zone) (now today : Int) (error : Err) :
    getUserSubmissionChart now today (Except.error error) = Except.ok [] ∧
    getUserActivityHeatmap zone now (Except.error error) = Except.ok [] :=
  ⟨rfl, rfl⟩

/-- C8: `getUserStats` fails exactly when one of its three aggregate reads fails,
and then with the error of one of them; a failure of the read inside
`calculateUserStreak` makes that function return `{0, 0}` and `getUserStats`,
when the three aggregate reads succeed, succeeds with both streak fields 0. -/
theorem getUserStats_fails_iff_aggregate_read_fails (zone : Zone) (now : Int)
    (store : Store) :
    ((∃ error, getUserStats zone now store = Except.error error) ↔
      ((∃ error, store.countResults = Except.error error) ∨
       (∃ error, store.sumPenalties = Except.error error) ∨
       (∃ error, store.sumSubmissions = Except.error error))) ∧
    (∀ error, getUserStats zone now store = Except.error error →
      (store.countResults = Except.error error ∨ store.sumPenalties = Except.error error ∨
        store.sumSubmissions = Except.error error)) ∧
    (∀ error, calculateUserStreak zone now (Except.error error)
      = { currentStreak := 0, longestStreak := 0 }) ∧
    (∀ error totalResults totalPenalties totalSubmissions,
      store.dailyResults = Except.error error →
      store.countResults = Except.ok totalResults →
      store.sumPenalties = Except.ok totalPenalties →
      store.sumSubmissions = Except.ok totalSubmissions →
      ∃ stats, getUserStats zone now store = Except.ok stats ∧
        stats.currentStreak = 0 ∧ stats.longestStreak = 0) := by
  obtain ⟨table, c, p, s⟩ := store
  refine ⟨?_, ?_, fun _ => rfl, ?_⟩
  · cases c <;> cases p <;> cases s <;> simp [getUserStats]
  · intro error
    cases c <;> cases p <;> cases s <;> simp [getUserStats] <;> tauto
  · intro error totalResults totalPenalties totalSubmissions ht hc hp hs
    simp only at ht hc hp hs
    subst ht hc hp hs
    exact ⟨_, rfl, rfl, rfl⟩

/-! ## Claims on `getUserActivityHeatmap` -/

/-- C9, refuted on the code, at two inputs in UTC.
(a) On 2024-03-01 (day 19783) a stored record dated 2023-03-01 (day 19417) is
not before `oneYearAgo` and the heatmap has an entry for its day, 366 days
before today.
(b) On day 1000 a stored record dated day 1001 is returned by the query, which
has no upper bound, and the heatmap has an entry for the day after today. -/
theorem heatmap_entry_outside_365_days :
    (civilFromDays 19783 = (2024, 3, 1) ∧ civilFromDays 19417 = (2023, 3, 1) ∧
      getUserActivityHeatmap utcZone (19783 * DAY) (Except.ok [⟨19417 * DAY, true, some 1⟩])
        = Except.ok [{ date := 19417, count := 1 }] ∧
      isoDateKey (19783 * DAY) - 19417 = 366) ∧
    (getUserActivityHeatmap utcZone (1000 * DAY) (Except.ok [⟨1001 * DAY, true, some 1⟩])
        = Except.ok [{ date := 1001, count := 1 }] ∧
      isoDateKey (1000 * DAY) < 1001) := by
  refine ⟨⟨by decide, by decide, by rfl, by decide⟩, by rfl, by decide⟩

/-- Days of the heatmap: every entry returned by `getUserActivityHeatmap` has a
day on or after the day of `oneYearAgo`, and no two returned entries have the
same day. -/
theorem heatmap_days_not_before_one_year_ago (zone : Zone) (now : Int)
    (rows : List DailyResult) :
    ∃ activityData : List HeatmapEntry,
      getUserActivityHeatmap zone now (Except.ok rows) = Except.ok activityData ∧
      (∀ e ∈ activityData, isoDateKey (addYears zone now (-1)) ≤ e.date) ∧
      (activityData.map (fun e => e.date)).Nodup := by
  refine ⟨_, rfl, ?_, ?_⟩
  · intro e he
    have hmem : e.date ∈ (heatmapOf (findMany rows (some (addYears zone now (-1)))
        SortOrder.asc)).map (fun e => e.date) := List.mem_map.mpr ⟨e, he, rfl⟩
    rw [heatmapOf_dates, mem_keys_foldl_activityStep] at hmem
    rcases hmem with h | ⟨r, hr, hd⟩
    · simp at h
    · rw [← hd]
      exact canonicalDay_mono ((mem_findMany_some rows _ _ r).mp hr).2
  · rw [heatmapOf_dates]
    exact keys_foldl_activityStep_nodup _ [] List.nodup_nil

/-- C10: for records `results` returned in ascending date order, the heatmap has
its entries in strictly ascending day order (so one entry per day), has an entry
for day `d` exactly when some returned record is of day `d`, gives each entry
the sum of `submissionsCount` (absent counted as 0) over the returned records of
its day, does not depend on the `completed` flags, and is empty for an empty
query result. -/
theorem heatmapOf_groups_by_day (results : List DailyResult)
    (hsorted : results.Pairwise (fun a b => a.date ≤ b.date)) :
    ((heatmapOf results).map (fun e => e.date)).Pairwise (fun a b => a < b) ∧
    (∀ d : Int, d ∈ (heatmapOf results).map (fun e => e.date) ↔
      ∃ r ∈ results, isoDateKey r.date = d) ∧
    (∀ e ∈ heatmapOf results,
      e.count = ((results.filter (fun r => decide (isoDateKey r.date = e.date))).map
        (fun r => r.submissionsCount.getD 0)).sum) ∧
    (∀ flags : DailyResult → Bool,
      heatmapOf (results.map (fun r => { r with completed := flags r })) = heatmapOf results) ∧
    heatmapOf [] = [] := by
  refine ⟨?_, ?_, fun e he => heatmapOf_count results e he, ?_, rfl⟩
  · rw [heatmapOf_dates]
    apply keys_foldl_activityStep_sorted results [] List.Pairwise.nil
    · intro k hk; simp at hk
    · exact hsorted.imp (fun h => canonicalDay_mono h)
  · intro d
    rw [heatmapOf_dates, mem_keys_foldl_activityStep]
    simp
  · intro flags
    unfold heatmapOf
    rw [List.foldl_map]
    rfl

/-- Instance of C10: two records of day 999 and one of day 1001. -/
theorem heatmapOf_groups_by_day_witness :
    ([⟨999 * DAY, false, some 3⟩, ⟨999 * DAY + 5, true, none⟩,
        ⟨1001 * DAY, true, some 1⟩] : List DailyResult).Pairwise
      (fun a b => a.date ≤ b.date) ∧
    heatmapOf [⟨999 * DAY, false, some 3⟩, ⟨999 * DAY + 5, true, none⟩,
        ⟨1001 * DAY, true, some 1⟩] = [⟨999, 3⟩, ⟨1001, 1⟩] ∧
    ((heatmapOf [⟨999 * DAY, false, some 3⟩, ⟨999 * DAY + 5, true, none⟩,
        ⟨1001 * DAY, true, some 1⟩]).map (fun e => e.date)).Pairwise (fun a b => a < b) :=
  ⟨by decide, by decide,
    (heatmapOf_groups_by_day [⟨999 * DAY, false, some 3⟩, ⟨999 * DAY + 5, true, none⟩,
        ⟨1001 * DAY, true, some 1⟩] (by decide)).1⟩

/-! ## Claims on the chart window and on `getUserStats` -/

/-- C11, refuted on the code: at 77 ms past midnight of day 1000 a record stored
at UTC midnight of day 970 (today-30) with `submissionsCount = 4` and
`completed = true` is not returned by the query `date >= thirtyDaysAgo`, and the
chart entry emitted for day 970 is the zero entry. -/
theorem chart_drops_record_at_window_start :
    isoDateKey (970 * DAY) = isoDateKey (1000 * DAY + 77) - 30 ∧
    findMany [⟨970 * DAY, true, some 4⟩] (some (addDays (1000 * DAY + 77) (-30)))
      SortOrder.asc = [] ∧
    ∃ chartData : List ChartEntry,
      getUserSubmissionChart (1000 * DAY + 77) (1000 * DAY + 77)
        (Except.ok [⟨970 * DAY, true, some 4⟩]) = Except.ok chartData ∧
      chartData.get? 0 = some { date := 970, submissions := 0, passed := 0, failed := 0 } := by
  refine ⟨by decide, by decide, _, rfl, ?_⟩
  rw [chartOf_eq (1000 * DAY + 77) (1000 * DAY + 77) _ (by decide) (by decide)]
  decide

/-- C12: when `getUserStats` succeeds, the three aggregate reads succeeded and
the record holds the streaks computed by `calculateUserStreak`, the record count
as `totalDays`, and the two sums as `totalPenalties` and `totalSubmissions`, a
sum reported as null being returned as the number 0. -/
theorem getUserStats_fields (zone : Zone) (now : Int) (store : Store) (stats : UserStats)
    (h : getUserStats zone now store = Except.ok stats) :
    ∃ (totalResults : Int) (totalPenalties totalSubmissions : Option Int),
      store.countResults = Except.ok totalResults ∧
      store.sumPenalties = Except.ok totalPenalties ∧
      store.sumSubmissions = Except.ok totalSubmissions ∧
      stats.currentStreak = (calculateUserStreak zone now store.dailyResults).currentStreak ∧
      stats.longestStreak = (calculateUserStreak zone now store.dailyResults).longestStreak ∧
      stats.totalDays = totalResults ∧
      stats.totalPenalties =
        (match totalPenalties with
         | some amount => amount
         | none => 0) ∧
      stats.totalSubmissions =
        (match totalSubmissions with
         | some submissionsCount => submissionsCount
         | none => 0) := by
  obtain ⟨table, c, p, s⟩ := store
  cases c with
  | error e => cases p <;> cases s <;> simp [getUserStats] at h
  | ok c =>
    cases p with
    | error e => cases s <;> simp [getUserStats] at h
    | ok p =>
      cases s with
      | error e => simp [getUserStats] at h
      | ok s =>
        simp only [getUserStats, Except.ok.injEq] at h
        subst h
        refine ⟨c, p, s, rfl, rfl, rfl, rfl, rfl, rfl, ?_, ?_⟩
        · cases p <;> rfl
        · cases s <;> rfl

/-- Instance of C12: a streak read that fails, three records counted, no ledger
row and a submission sum of 4. -/
theorem getUserStats_fields_witness :
    getUserStats utcZone 0
        ⟨Except.error "store down", Except.ok 3, Except.ok none, Except.ok (some 4)⟩
      = Except.ok { currentStreak := 0, longestStreak := 0, totalDays := 3,
                    totalPenalties := 0, totalSubmissions := 4 } ∧
    ∃ (totalResults : Int) (totalPenalties totalSubmissions : Option Int),
      (Except.ok 3 : Except Err Int) = Except.ok totalResults ∧
      (Except.ok none : Except Err (Option Int)) = Except.ok totalPenalties ∧
      (Except.ok (some 4) : Except Err (Option Int)) = Except.ok totalSubmissions ∧
      (0 : Nat) = (calculateUserStreak utcZone 0 (Except.error "store down")).currentStreak ∧
      (0 : Nat) = (calculateUserStreak utcZone 0 (Except.error "store down")).longestStreak ∧
      (3 : Int) = totalResults ∧
      (0 : Int) =
        (match totalPenalties with
         | some amount => amount
         | none => 0) ∧
      (4 : Int) =
        (match totalSubmissions with
         | some submissionsCount => submissionsCount
         | none => 0) :=
  ⟨rfl, getUserStats_fields utcZone 0
    ⟨Except.error "store down", Except.ok 3, Except.ok none, Except.ok (some 4)⟩ _ rfl⟩

end StatsService
